import Mathlib

/-!
Verification of the GitHub OAuth PKCE login flow in
`crates/goose-cli/src/commands/auth.rs`.

The Rust source is shallowly embedded: strings are `List Char`, bytes are
`Nat` (values `< 256`), machine words are `Nat` reduced modulo `2 ^ 32`,
fallible operations return `Option` or `Except`.  External crates used by
the source (`base64`, `sha2`, `url`/`form_urlencoded`, `serde_json`) are
embedded by implementing the relevant algorithms directly.
-/

namespace GooseAuth

/-- Strings are modelled as lists of characters. -/
abbrev Str := List Char

/-- Rust `str::trim`: drop leading and trailing whitespace.  (Modelled with
Lean's ASCII notion of whitespace; the source trims Unicode whitespace, which
coincides on all inputs relevant here.) -/
def rustTrim (s : Str) : Str :=
  ((s.dropWhile Char.isWhitespace).reverse.dropWhile Char.isWhitespace).reverse

/-- Does `s` start with `p`? -/
def startsWith : Str → Str → Bool
  | _, [] => true
  | [], _ :: _ => false
  | a :: as, b :: bs => a = b && startsWith as bs

/-- Does `needle` occur as a contiguous substring of `hay`? -/
def strHas (hay needle : Str) : Bool :=
  match hay with
  | [] => needle.isEmpty
  | _ :: t => startsWith hay needle || strHas t needle

/-! ## base64 (URL-safe alphabet, no padding)

Embeds `base64::engine::general_purpose::URL_SAFE_NO_PAD.encode`. -/

/-- The URL-safe base64 alphabet. -/
def b64Alphabet : Str :=
  ("ABCDEFGHIJKLMNOPQRSTUVWXYZabcdefghijklmnopqrstuvwxyz0123456789-_").data

/-- Character for a 6-bit group. -/
def b64Char (n : Nat) : Char := b64Alphabet.getD n 'A'

/-- URL-safe base64 encoding without padding, over a list of byte values. -/
def base64UrlNoPadEncode : List Nat → Str
  | [] => []
  | [a] => [b64Char (a / 4), b64Char (a % 4 * 16)]
  | [a, b] => [b64Char (a / 4), b64Char (a % 4 * 16 + b / 16), b64Char (b % 16 * 4)]
  | a :: b :: c :: rest =>
      b64Char (a / 4) :: b64Char (a % 4 * 16 + b / 16) ::
      b64Char (b % 16 * 4 + c / 64) :: b64Char (c % 64) ::
      base64UrlNoPadEncode rest

/-! ## SHA-256

Embeds `sha2::Sha256` (FIPS 180-4) over byte lists, with 32-bit words as
`Nat` reduced modulo `2 ^ 32`. -/

/-- Truncation to a 32-bit word. -/
def w32 (n : Nat) : Nat := n % 4294967296

/-- Rotate a 32-bit word right by `k` (for `0 < k < 32`). -/
def rotr (k n : Nat) : Nat := w32 ((n >>> k) ||| (n <<< (32 - k)))

/-- SHA-256 `Ch` function. -/
def shaCh (e f g : Nat) : Nat := (e &&& f) ^^^ ((e ^^^ 4294967295) &&& g)

/-- SHA-256 `Maj` function. -/
def shaMaj (a b c : Nat) : Nat := (a &&& b) ^^^ (a &&& c) ^^^ (b &&& c)

/-- SHA-256 big sigma 0. -/
def bigSigma0 (x : Nat) : Nat := rotr 2 x ^^^ rotr 13 x ^^^ rotr 22 x

/-- SHA-256 big sigma 1. -/
def bigSigma1 (x : Nat) : Nat := rotr 6 x ^^^ rotr 11 x ^^^ rotr 25 x

/-- SHA-256 small sigma 0. -/
def smallSigma0 (x : Nat) : Nat := rotr 7 x ^^^ rotr 18 x ^^^ (x >>> 3)

/-- SHA-256 small sigma 1. -/
def smallSigma1 (x : Nat) : Nat := rotr 17 x ^^^ rotr 19 x ^^^ (x >>> 10)

/-- SHA-256 round constants (decimal values of the FIPS 180-4 table). -/
def shaK : List Nat :=
  [1116352408, 1899447441, 3049323471, 3921009573, 961987163,
   1508970993, 2453635748, 2870763221, 3624381080, 310598401,
   607225278, 1426881987, 1925078388, 2162078206, 2614888103,
   3248222580, 3835390401, 4022224774, 264347078, 604807628,
   770255983, 1249150122, 1555081692, 1996064986, 2554220882,
   2821834349, 2952996808, 3210313671, 3336571891, 3584528711,
   113926993, 338241895, 666307205, 773529912, 1294757372,
   1396182291, 1695183700, 1986661051, 2177026350, 2456956037,
   2730485921, 2820302411, 3259730800, 3345764771, 3516065817,
   3600352804, 4094571909, 275423344, 430227734, 506948616,
   659060556, 883997877, 958139571, 1322822218, 1537002063,
   1747873779, 1955562222, 2024104815, 2227730452, 2361852424,
   2428436474, 2756734187, 3204031479, 3329325298]

/-- SHA-256 initial hash value (decimal values of the FIPS 180-4 table). -/
def shaH0 : List Nat :=
  [1779033703, 3144134277, 1013904242, 2773480762,
   1359893119, 2600822924, 528734635, 1541459225]

/-- Big-endian byte representation of `n` in `k` bytes. -/
def beBytes (k n : Nat) : List Nat :=
  (List.range k).map (fun i => n / 2 ^ (8 * (k - 1 - i)) % 256)

/-- SHA-256 message padding: append `0x80`, zero bytes up to 56 mod 64, then
the bit length as 8 big-endian bytes. -/
def sha256Pad (msg : List Nat) : List Nat :=
  msg ++ 128 :: List.replicate ((119 - msg.length % 64) % 64) 0
      ++ beBytes 8 (8 * msg.length)

/-- Big-endian 32-bit words from bytes. -/
def bytesToWords : List Nat → List Nat
  | a :: b :: c :: d :: rest => (((a * 256 + b) * 256 + c) * 256 + d) :: bytesToWords rest
  | _ => []

/-- Extend the 16-word message schedule by `n` further words. -/
def extendW (w : List Nat) : Nat → List Nat
  | 0 => w
  | n + 1 =>
      let i := w.length
      let nw := w32 (smallSigma1 (w.getD (i - 2) 0) + w.getD (i - 7) 0 +
                     smallSigma0 (w.getD (i - 15) 0) + w.getD (i - 16) 0)
      extendW (w ++ [nw]) n

/-- One SHA-256 compression round on the 8-word working state. -/
def shaStep (v : List Nat) (kw : Nat × Nat) : List Nat :=
  match v with
  | [a, b, c, d, e, f, g, h] =>
      let t1 := w32 (h + bigSigma1 e + shaCh e f g + kw.1 + kw.2)
      let t2 := w32 (bigSigma0 a + shaMaj a b c)
      [w32 (t1 + t2), a, b, c, w32 (d + t1), e, f, g]
  | v => v

/-- Compress one 64-byte block into the hash state. -/
def shaCompress (h : List Nat) (block : List Nat) : List Nat :=
  let w := extendW (bytesToWords block) 48
  let v := (shaK.zip w).foldl shaStep h
  List.zipWith (fun x y => w32 (x + y)) v h

/-- Split into 64-byte chunks (fuel-driven). -/
def chunksOf64 (fuel : Nat) (l : List Nat) : List (List Nat) :=
  match fuel, l with
  | _, [] => []
  | 0, _ => []
  | f + 1, l => l.take 64 :: chunksOf64 f (l.drop 64)

/-- SHA-256 digest (32 bytes) of a byte list. -/
def sha256 (msg : List Nat) : List Nat :=
  let padded := sha256Pad msg
  let blocks := chunksOf64 padded.length padded
  ((blocks.foldl shaCompress shaH0).map (beBytes 4)).flatten

/-! ## PKCE material

Embeds `random_url_safe` (auth.rs lines 28-33) and the PKCE block of `login`
(auth.rs lines 71-76).  Randomness is made explicit: the byte list that
`rand::thread_rng().fill_bytes` would produce is a parameter. -/

/-- Embeds `random_url_safe`: encode the freshly drawn random bytes with
URL-safe unpadded base64.  The source's `len` argument is the length of
`randomBytes`. -/
def random_url_safe (randomBytes : List Nat) : Str :=
  base64UrlNoPadEncode randomBytes

/-- PKCE values generated at the start of a login attempt. -/
structure PkceMaterial where
  state : Str
  verifier : Str
  challenge : Str
  deriving DecidableEq

/-- Embeds the PKCE generation in `login` (auth.rs lines 72-76):
`state = random_url_safe(24)`, `code_verifier = random_url_safe(64)`,
`digest = Sha256::digest(code_verifier.as_bytes())`,
`code_challenge = URL_SAFE_NO_PAD.encode(digest)`.  `stateBytes` and
`verifierBytes` are the random bytes drawn for the two calls. -/
def generatePkce (stateBytes verifierBytes : List Nat) : PkceMaterial :=
  let st := random_url_safe stateBytes
  let verifier := random_url_safe verifierBytes
  let digest := sha256 (verifier.map Char.toNat)
  ⟨st, verifier, base64UrlNoPadEncode digest⟩

/-! ## Query-string and URL parsing

Embeds the parts of the `url` and `form_urlencoded` crates the source uses:
`Url::parse` (absolute-URL check and query extraction), `Url::query_pairs`
and `form_urlencoded::parse` (splitting on `&`, skipping empty pieces,
splitting each piece at the first `=`, replacing `+` by space and
percent-decoding).  Percent-decoding is modelled per byte; multi-byte UTF-8
percent sequences decode to the corresponding byte values as characters,
which coincides with the crate on all ASCII data. -/

/-- Split on a separator character, keeping empty segments. -/
def splitOnChar (c : Char) : Str → List Str
  | [] => [[]]
  | x :: xs =>
      let r := splitOnChar c xs
      if x = c then [] :: r
      else
        match r with
        | [] => [[x]]
        | h :: t => (x :: h) :: t

/-- Hex digit value. -/
def hexVal (c : Char) : Option Nat :=
  if '0' ≤ c ∧ c ≤ '9' then some (c.toNat - '0'.toNat)
  else if 'a' ≤ c ∧ c ≤ 'f' then some (c.toNat - 'a'.toNat + 10)
  else if 'A' ≤ c ∧ c ≤ 'F' then some (c.toNat - 'A'.toNat + 10)
  else none

/-- Form-urlencoded value decoding: `+` becomes space, `%hh` becomes the byte
`hh`; malformed `%` sequences are kept as-is. -/
def percentDecode : Str → Str
  | [] => []
  | '%' :: a :: b :: rest =>
      match hexVal a, hexVal b with
      | some x, some y => Char.ofNat (16 * x + y) :: percentDecode rest
      | _, _ => '%' :: percentDecode (a :: b :: rest)
  | x :: rest => (if x = '+' then ' ' else x) :: percentDecode rest

/-- Split a piece at its first `=`: key before, value after (empty value when
there is no `=`). -/
def splitFirstEq : Str → Str × Str
  | [] => ([], [])
  | '=' :: rest => ([], rest)
  | x :: rest =>
      let (k, v) := splitFirstEq rest
      (x :: k, v)

/-- Embeds `form_urlencoded::parse` (and `Url::query_pairs`): split on `&`,
skip empty pieces, split each piece at the first `=`, decode key and value. -/
def formPairs (s : Str) : List (Str × Str) :=
  (splitOnChar '&' s).filterMap fun piece =>
    if piece.isEmpty then none
    else
      let (k, v) := splitFirstEq piece
      some (percentDecode k, percentDecode v)

/-- Result of `Url::parse` on an absolute URL, reduced to what the source
reads from it: the scheme and everything after the `:`. -/
structure ParsedUrl where
  scheme : Str
  afterScheme : Str
  deriving DecidableEq

/-- May a character start a URL scheme? -/
def isSchemeStart (c : Char) : Bool := c.isAlpha

/-- May a character continue a URL scheme? -/
def isSchemeChar (c : Char) : Bool := c.isAlphanum || c = '+' || c = '-' || c = '.'

/-- Embeds the absolute-URL requirement of `Url::parse`: the input parses
exactly when it starts with a valid scheme followed by `:`.  (The crate's
further per-scheme validation is not exercised by the inputs of this flow.) -/
def urlParse (s : Str) : Option ParsedUrl :=
  match s with
  | [] => none
  | c :: rest =>
      if isSchemeStart c then
        match (c :: rest).dropWhile isSchemeChar with
        | ':' :: tail => some ⟨(c :: rest).takeWhile isSchemeChar, tail⟩
        | _ => none
      else none

/-- The query component: what lies between the first `?` (outside the
fragment) and the fragment; empty when there is no `?`. -/
def urlQuery (u : ParsedUrl) : Str :=
  match (u.afterScheme.takeWhile (· ≠ '#')).dropWhile (· ≠ '?') with
  | [] => []
  | _ :: qs => qs

/-- Embeds `url.query_pairs()`. -/
def urlQueryPairs (u : ParsedUrl) : List (Str × Str) :=
  formPairs (urlQuery u)

/-! ## Manual capture

Embeds `manual_oauth_input` (auth.rs lines 356-418).  The TTY check becomes
the `interactive` flag and the line read from stdin becomes `raw`. -/

/-- Typed reasons for failure, following the spec's error kinds; the source
carries them as `anyhow` messages. -/
inductive ErrorKind where
  | ConfigMissing
  | StateMismatch
  | NoInteractiveInput
  | NoCodeProvided
  | ExchangeTransportFailed
  | ExchangeRejected
  | InvalidJsonResponse
  | NoAccessToken
  deriving DecidableEq

/-- Embeds the `code`/`state` extraction loops (auth.rs lines 376-384 and
395-403): iterate over the pairs, remembering the last `code` and the last
`state` value seen. -/
def extractCodeState (pairs : List (Str × Str)) : Option Str × Option Str :=
  pairs.foldl
    (fun acc kv =>
      if kv.1 = ("code").data then (some kv.2, acc.2)
      else if kv.1 = ("state").data then (acc.1, some kv.2)
      else acc)
    (none, none)

/-- Embeds the accept-or-mismatch step shared by the URL rule and the
query-string rule (auth.rs lines 385-391 and 404-410): with a `code` in hand,
default an absent `state` to `expected_state`, then require exact equality. -/
def acceptCode (code : Str) (stateOpt : Option Str) (expected : Str) :
    Except ErrorKind (Str × Str) :=
  let returned := stateOpt.getD expected
  if returned = expected then .ok (code, returned) else .error .StateMismatch

/-- Embeds the tail of `manual_oauth_input` after the URL rule failed to
return (auth.rs lines 394-417): the raw-query-string rule, the bare-code
rule, and the empty-input failure. -/
def manualTail (input expected : Str) : Except ErrorKind (Str × Str) :=
  let viaForm : Option (Except ErrorKind (Str × Str)) :=
    if input.contains '=' && input.contains '&' then
      match extractCodeState (formPairs input) with
      | (some code, st) => some (acceptCode code st expected)
      | (none, _) => none
    else none
  match viaForm with
  | some r => r
  | none =>
      if input.isEmpty then .error .NoCodeProvided
      else .ok (input, expected)

/-- Embeds `manual_oauth_input` (auth.rs lines 356-418): require a TTY, trim
the line, try the absolute-URL rule, then fall through to `manualTail`. -/
def manual_oauth_input (interactive : Bool) (raw expected : Str) :
    Except ErrorKind (Str × Str) :=
  if !interactive then .error .NoInteractiveInput
  else
    let input := rustTrim raw
    let viaUrl : Option (Except ErrorKind (Str × Str)) :=
      match urlParse input with
      | some u =>
          match extractCodeState (urlQueryPairs u) with
          | (some code, st) => some (acceptCode code st expected)
          | (none, _) => none
      | none => none
    match viaUrl with
    | some r => r
    | none => manualTail input expected

/-! ## Callback listener and single-use handoff

Embeds the `/oauth_callback` route handler (auth.rs lines 100-120).  The
`oneshot` sender wrapped in `Arc<Mutex<Option<_>>>` becomes `HandoffState`:
`senderTaken` records whether the sender has been taken out of the mutex
slot, `delivered` the value sent through the channel.  Handler invocations
are serialized by the mutex; a request sequence is a list of queries. -/

/-- Deserialized query of a callback request; both parameters are required
by serde, so only requests carrying both reach the handler. -/
structure CallbackQuery where
  code : Str
  state : Str
  deriving DecidableEq

/-- State of the single-use handoff. -/
structure HandoffState where
  senderTaken : Bool
  delivered : Option (Str × Str)
  deriving DecidableEq

/-- The handoff before any callback: sender in place, nothing delivered. -/
def initialHandoff : HandoffState := ⟨false, none⟩

/-- Success page returned on a matching state. -/
def successHtml : Str :=
  ("<html><body><h3>Authentication succeeded. You can close this window.</h3></body></html>").data

/-- Page returned on a state mismatch. -/
def invalidStateHtml : Str :=
  ("<html><body><h3>Invalid state parameter.</h3></body></html>").data

/-- Embeds one invocation of the route handler (auth.rs lines 107-117): on
matching state, take the sender if still present and send `(code, state)`;
on mismatch, leave the handoff untouched; respond with the matching page. -/
def callbackHandler (expected : Str) (h : HandoffState) (q : CallbackQuery) :
    HandoffState × Str :=
  if q.state = expected then
    (if h.senderTaken then h else ⟨true, some (q.code, q.state)⟩, successHtml)
  else
    (h, invalidStateHtml)

/-- Run the handler over a sequence of callback requests from a given
handoff state. -/
def runCallbacks (expected : Str) (h : HandoffState) (qs : List CallbackQuery) :
    HandoffState :=
  qs.foldl (fun h q => (callbackHandler expected h q).1) h

/-- Run the handler over a sequence of callback requests of one login
attempt, starting from the fresh handoff. -/
def processCallbacks (expected : Str) (qs : List CallbackQuery) : HandoffState :=
  runCallbacks expected initialHandoff qs

/-! ## Token response model

Embeds the `serde_json` values, parsing and serialization the source uses
(auth.rs lines 194-223).  Numbers keep their literal text; objects keep
insertion order with duplicate keys collapsed by overwriting, matching the
map behaviour the source relies on.  Serialization is compact where the
source pretty-prints; the claims do not depend on whitespace. -/

/-- JSON values. -/
inductive Json where
  | null
  | bool (b : Bool)
  | num (raw : Str)
  | str (s : Str)
  | arr (items : List Json)
  | obj (fields : List (Str × Json))

/-- Drop leading JSON whitespace. -/
def skipWs (s : Str) : Str :=
  s.dropWhile (fun c => c = ' ' || c = '\n' || c = '\r' || c = '\t')

/-- Decode a one-character JSON escape. -/
def jsonEscDecode (e : Char) : Option Char :=
  if e = '"' then some '"'
  else if e = '\\' then some '\\'
  else if e = '/' then some '/'
  else if e = 'b' then some (Char.ofNat 8)
  else if e = 'f' then some (Char.ofNat 12)
  else if e = 'n' then some '\n'
  else if e = 'r' then some '\r'
  else if e = 't' then some '\t'
  else none

/-- Parse the body of a JSON string literal after the opening quote,
returning the decoded characters and the rest of the input. -/
def parseJsonStringBody : Str → Option (Str × Str)
  | [] => none
  | '"' :: r => some ([], r)
  | '\\' :: 'u' :: h1 :: h2 :: h3 :: h4 :: r =>
      match hexVal h1, hexVal h2, hexVal h3, hexVal h4 with
      | some a, some b, some c, some d =>
          (parseJsonStringBody r).map
            (fun p => (Char.ofNat (((a * 16 + b) * 16 + c) * 16 + d) :: p.1, p.2))
      | _, _, _, _ => none
  | '\\' :: e :: r =>
      match jsonEscDecode e with
      | some c => (parseJsonStringBody r).map (fun p => (c :: p.1, p.2))
      | none => none
  | c :: r => (parseJsonStringBody r).map (fun p => (c :: p.1, p.2))

/-- May a character appear in a JSON number literal? -/
def isNumChar (c : Char) : Bool :=
  c.isDigit || c = '-' || c = '+' || c = '.' || c = 'e' || c = 'E'

/-- Insert a field, overwriting the value of an existing key in place. -/
def insertField (fields : List (Str × Json)) (k : Str) (v : Json) :
    List (Str × Json) :=
  match fields with
  | [] => [(k, v)]
  | (k', v') :: t => if k' = k then (k, v) :: t else (k', v') :: insertField t k v

mutual

/-- Parse one JSON value (fuel-driven recursion). -/
def parseJsonVal : Nat → Str → Option (Json × Str)
  | 0, _ => none
  | fuel + 1, s =>
      match skipWs s with
      | 'n' :: 'u' :: 'l' :: 'l' :: r => some (.null, r)
      | 't' :: 'r' :: 'u' :: 'e' :: r => some (.bool true, r)
      | 'f' :: 'a' :: 'l' :: 's' :: 'e' :: r => some (.bool false, r)
      | '"' :: r => (parseJsonStringBody r).map (fun p => (.str p.1, p.2))
      | '[' :: r => parseJsonArrItems fuel (skipWs r)
      | '\x7b' :: r => parseJsonObjItems fuel [] (skipWs r)
      | c :: r =>
          if c.isDigit || c = '-' then
            some (.num (c :: r.takeWhile isNumChar), r.dropWhile isNumChar)
          else none
      | [] => none

/-- Parse array items after `[` (whitespace already skipped). -/
def parseJsonArrItems : Nat → Str → Option (Json × Str)
  | 0, _ => none
  | fuel + 1, s =>
      match s with
      | ']' :: r => some (.arr [], r)
      | _ =>
          match parseJsonVal fuel s with
          | none => none
          | some (v, r) =>
              match skipWs r with
              | ',' :: r' =>
                  match parseJsonArrItems fuel (skipWs r') with
                  | some (.arr items, r'') => some (.arr (v :: items), r'')
                  | _ => none
              | ']' :: r' => some (.arr [v], r')
              | _ => none

/-- Parse object fields after the opening brace (whitespace already
skipped), accumulating into `acc` with key overwriting. -/
def parseJsonObjItems : Nat → List (Str × Json) → Str → Option (Json × Str)
  | 0, _, _ => none
  | fuel + 1, acc, s =>
      match s with
      | '\x7d' :: r => some (.obj acc, r)
      | '"' :: r =>
          match parseJsonStringBody r with
          | none => none
          | some (k, r1) =>
              match skipWs r1 with
              | ':' :: r2 =>
                  match parseJsonVal fuel (skipWs r2) with
                  | none => none
                  | some (v, r3) =>
                      match skipWs r3 with
                      | ',' :: r4 => parseJsonObjItems fuel (insertField acc k v) (skipWs r4)
                      | '\x7d' :: r4 => some (.obj (insertField acc k v), r4)
                      | _ => none
              | _ => none
      | _ => none

end

/-- Embeds `serde_json::from_str::<Value>`: parse one value and require only
whitespace to remain. -/
def jsonParse (s : Str) : Option Json :=
  match parseJsonVal (s.length + 1) s with
  | some (v, r) => if (skipWs r).isEmpty then some v else none
  | none => none

/-- Escape a character for JSON string output. -/
def jsonEscapeChar (c : Char) : Str :=
  if c = '"' then ['\\', '"']
  else if c = '\\' then ['\\', '\\']
  else if c = '\n' then ['\\', 'n']
  else if c = '\r' then ['\\', 'r']
  else if c = '\t' then ['\\', 't']
  else [c]

/-- Serialize a JSON string literal. -/
def jsonStrLit (s : Str) : Str :=
  '"' :: (s.map jsonEscapeChar).flatten ++ ['"']

mutual

/-- Embeds `serde_json::to_string` of a value (compact form). -/
def jsonSerialize : Json → Str
  | .null => ("null").data
  | .bool true => ("true").data
  | .bool false => ("false").data
  | .num raw => raw
  | .str s => jsonStrLit s
  | .arr items => '[' :: serializeItems items ++ [']']
  | .obj fields => '\x7b' :: serializeFields fields ++ ['\x7d']

/-- Serialize array items, comma-separated. -/
def serializeItems : List Json → Str
  | [] => []
  | [x] => jsonSerialize x
  | x :: y :: rest => jsonSerialize x ++ ',' :: serializeItems (y :: rest)

/-- Serialize object fields, comma-separated. -/
def serializeFields : List (Str × Json) → Str
  | [] => []
  | [(k, v)] => jsonStrLit k ++ ':' :: jsonSerialize v
  | (k, v) :: g :: rest => jsonStrLit k ++ ':' :: jsonSerialize v ++ ',' :: serializeFields (g :: rest)

end

/-- First value stored under a key. -/
def lookupField (fields : List (Str × Json)) (k : Str) : Option Json :=
  match fields with
  | [] => none
  | (k', v) :: t => if k' = k then some v else lookupField t k

/-- Embeds `Value::get(key)`: field lookup on objects, `None` elsewhere. -/
def jsonGet (j : Json) (k : Str) : Option Json :=
  match j with
  | .obj fields => lookupField fields k
  | _ => none

/-- Embeds `json.get(key).and_then(Value::as_str)`. -/
def jsonGetStr (j : Json) (k : Str) : Option Str :=
  match jsonGet j k with
  | some (.str s) => some s
  | _ => none

/-! ## Token exchange and its diagnostics

Embeds the response handling of the token exchange (auth.rs lines 184-223;
`login_manual_only` duplicates the same code at lines 312-349).  Every
`eprintln!` becomes a `DiagLine`; the level records the `[oauth-info]` /
`[oauth-debug]` tag the source puts in front of the line. -/

/-- Severity tag of a diagnostic line. -/
inductive LogLevel where
  | info
  | debug
  deriving DecidableEq

/-- One line of diagnostic output. -/
structure DiagLine where
  level : LogLevel
  text : Str
  deriving DecidableEq

/-- Build an `[oauth-info]` line. -/
def infoLine (m : Str) : DiagLine := ⟨.info, ("[oauth-info] ").data ++ m⟩

/-- Build an `[oauth-debug]` line. -/
def debugLine (m : Str) : DiagLine := ⟨.debug, ("[oauth-debug] ").data ++ m⟩

/-- The access-token key. -/
def accessTokenKey : Str := ("access_token").data

/-- The refresh-token key. -/
def refreshTokenKey : Str := ("refresh_token").data

/-- The replacement value used by the redaction. -/
def redactedValue : Str := ("<redacted>").data

/-- Is a key present in the field list?  Embeds `Map::contains_key`. -/
def hasField : List (Str × Json) → Str → Bool
  | [], _ => false
  | f :: t, k => decide (f.1 = k) || hasField t k

/-- Overwrite the value stored under a key, keeping its position.  Embeds
`Map::insert` on a map already containing the key. -/
def setField : List (Str × Json) → Str → Json → List (Str × Json)
  | [], _, _ => []
  | f :: t, k, v => (if f.1 = k then (f.1, v) else f) :: setField t k v

/-- Embeds the redaction block (auth.rs lines 207-215): on an object, if
`access_token` or `refresh_token` is present, overwrite it with
`"<redacted>"`; other values are untouched. -/
def redactTokenResponse (j : Json) : Json :=
  match j with
  | .obj fields =>
      let f1 := if hasField fields accessTokenKey then
          setField fields accessTokenKey (.str redactedValue) else fields
      let f2 := if hasField f1 refreshTokenKey then
          setField f1 refreshTokenKey (.str redactedValue) else f1
      .obj f2
  | j => j

/-- Render a boolean the way `format!` does. -/
def boolStr (b : Bool) : Str := if b then ("true").data else ("false").data

/-- The constant trailing diagnostics of the missing-token branch
(auth.rs lines 217-220). -/
def configDiags (redirectUrl scopes : Str) (clientIdNonEmpty hasSecret : Bool) :
    List DiagLine :=
  [debugLine (("Used redirect_uri: ").data ++ redirectUrl),
   debugLine (("Used scopes: ").data ++ scopes),
   debugLine (("Client ID present: ").data ++ boolStr clientIdNonEmpty),
   debugLine (("Client secret provided: ").data ++ boolStr hasSecret)]

/-- Embeds the token-response handling (auth.rs lines 194-223): parse the
body as JSON (on failure, print the raw body and fail); extract
`access_token` as a string (on failure, print the redacted response plus the
config diagnostics and fail with the no-access-token error). -/
def processTokenResponse (redirectUrl scopes : Str)
    (clientIdNonEmpty hasSecret : Bool) (body : Str) :
    Except ErrorKind Str × List DiagLine :=
  match jsonParse body with
  | none =>
      (.error .InvalidJsonResponse,
       [debugLine (("Raw token response (non-JSON): ").data ++ body)])
  | some j =>
      match jsonGetStr j accessTokenKey with
      | some tok => (.ok tok, [])
      | none =>
          (.error .NoAccessToken,
           debugLine (("Token endpoint response (redacted): ").data ++
               jsonSerialize (redactTokenResponse j)) ::
             configDiags redirectUrl scopes clientIdNonEmpty hasSecret)

/-- Outcome of running the `curl` child process (auth.rs line 184):
the spawn may fail, or the process runs with an exit status and captured
stdout/stderr. -/
inductive CurlOutcome where
  | spawnFailed
  | ran (exitSuccess : Bool) (stdout stderr : Str)
  deriving DecidableEq

/-- Embeds the exchange result handling (auth.rs lines 185-223): spawn
failure is a transport failure, a non-success exit status is a rejected
exchange, and a successful run hands stdout to the response processing. -/
def tokenExchange (redirectUrl scopes : Str) (clientIdNonEmpty hasSecret : Bool)
    (curl : CurlOutcome) : Except ErrorKind Str × List DiagLine :=
  match curl with
  | .spawnFailed => (.error .ExchangeTransportFailed, [])
  | .ran false _ _ => (.error .ExchangeRejected, [])
  | .ran true stdout _ =>
      processTokenResponse redirectUrl scopes clientIdNonEmpty hasSecret stdout

/-! ## Flow orchestration after the listener starts

Embeds the tail of `login` (auth.rs lines 138-227): the 60-second wait on
the handoff, the fallback to manual capture, the state validation, and the
token exchange. -/

/-- Timeout of the automatic callback wait, in seconds
(auth.rs line 138). -/
def callbackTimeoutSecs : Nat := 60

/-- The three possible outcomes of `timeout(60s, rx)`: `Ok(Ok(pair))` is a
received value, `Ok(Err(_))` is the channel closed without a value, and
`Err(_)` is the elapsed timeout. -/
inductive AwaitOutcome where
  | received (code state : Str)
  | closed
  | timedOut
  deriving DecidableEq

/-- Continuation selected when leaving the callback wait. -/
inductive AwaitNext where
  | toValidation (code state : Str)
  | toManualFallback
  deriving DecidableEq

/-- Embeds the match on the wait result (auth.rs lines 143-153): a received
pair continues to validation; a closed channel and an elapsed timeout both
log one informational line and continue to manual fallback. -/
def afterAwait : AwaitOutcome → AwaitNext × List DiagLine
  | .received c s => (.toValidation c s, [])
  | .closed =>
      (.toManualFallback,
       [infoLine (("Did not capture OAuth callback automatically.").data)])
  | .timedOut =>
      (.toManualFallback,
       [infoLine (("OAuth callback timed out after 60s.").data)])

/-- The external events one `login` run consumes after the listener is up:
the wait outcome, whether stdin is a TTY, the line manual capture would
read, and the result of the `curl` child. -/
structure LoginDeps where
  awaitOutcome : AwaitOutcome
  interactive : Bool
  manualInput : Str
  curl : CurlOutcome
  deriving DecidableEq

/-- Embeds `login` from the wait onward (auth.rs lines 138-227): obtain a
`(code, returned_state)` pair from the callback or from manual capture,
require `returned_state == state`, then run the token exchange; a token is
validated and dropped, so success carries no data. -/
def loginFlow (state redirectUrl scopes : Str)
    (clientIdNonEmpty hasSecret : Bool) (deps : LoginDeps) :
    Except ErrorKind Unit × List DiagLine :=
  let (next, diags1) := afterAwait deps.awaitOutcome
  let captured : Except ErrorKind (Str × Str) :=
    match next with
    | .toValidation c s => .ok (c, s)
    | .toManualFallback => manual_oauth_input deps.interactive deps.manualInput state
  match captured with
  | .error e => (.error e, diags1)
  | .ok (_, returnedState) =>
      if returnedState ≠ state then (.error .StateMismatch, diags1)
      else
        let (res, diags2) :=
          tokenExchange redirectUrl scopes clientIdNonEmpty hasSecret deps.curl
        (res.map (fun _ => ()), diags1 ++ diags2)

/-! ## Entry point

Embeds `ensure_authenticated` (auth.rs lines 35-60).  The environment
lookup, the TTY check and the line read for the mode choice are explicit
parameters; the two login flavours are passed as the results they would
produce, which also makes "the flow is not run" expressible as independence
from those results. -/

/-- Which branch `ensure_authenticated` takes. -/
inductive AuthMode where
  | bypass
  | manualMode
  | automaticMode
  deriving DecidableEq

/-- Embeds the bypass test (auth.rs line 37):
`env::var("GOOSE_AUTH_BYPASS").unwrap_or_default() == "1"`. -/
def bypassRequested (bypassVar : Option Str) : Bool :=
  bypassVar.getD [] = ("1").data

/-- Embeds the mode selection (auth.rs lines 53-54):
`choice.trim().to_lowercase().starts_with('m')`. -/
def choiceStartsWithM (choice : Str) : Bool :=
  match (rustTrim choice).map Char.toLower with
  | 'm' :: _ => true
  | _ => false

/-- The branch `ensure_authenticated` selects (auth.rs lines 35-59). -/
def ensureAuthMode (bypassVar : Option Str) (isTerminal : Bool) (choice : Str) :
    AuthMode :=
  if bypassRequested bypassVar then .bypass
  else if isTerminal && choiceStartsWithM choice then .manualMode
  else .automaticMode

/-- Embeds `ensure_authenticated` (auth.rs lines 35-60): the bypass returns
success immediately with no diagnostics; otherwise the selected login
flavour runs and its result is returned. -/
def ensure_authenticated (bypassVar : Option Str) (isTerminal : Bool)
    (choice : Str)
    (loginManualResult loginAutoResult : Except ErrorKind Unit × List DiagLine) :
    Except ErrorKind Unit × List DiagLine :=
  match ensureAuthMode bypassVar isTerminal choice with
  | .bypass => (.ok (), [])
  | .manualMode => loginManualResult
  | .automaticMode => loginAutoResult

/-! ## Supporting lemmas -/

/-- Output length of unpadded base64: `ceil(4 * n / 3)` characters for `n`
input bytes. -/
theorem base64UrlNoPadEncode_length (l : List Nat) :
    (base64UrlNoPadEncode l).length = (4 * l.length + 2) / 3 := by
  match l with
  | [] => rfl
  | [_] => simp [base64UrlNoPadEncode]
  | [_, _] => simp [base64UrlNoPadEncode]
  | a :: b :: c :: rest =>
    have ih := base64UrlNoPadEncode_length rest
    simp only [base64UrlNoPadEncode, List.length_cons, ih]
    omega

/-- SHA-256 of the empty message agrees with the FIPS 180-4 test vector. -/
theorem sha256_empty_vector :
    sha256 [] =
      [227, 176, 196, 66, 152, 252, 28, 20, 154, 251, 244, 200, 153, 111,
       185, 36, 39, 174, 65, 228, 100, 155, 147, 76, 164, 149, 153, 27,
       120, 82, 184, 85] := by rfl

/-- The token-endpoint success body is parsed with the access token
extracted; a sanity check of the JSON embedding. -/
theorem jsonParse_success_body :
    (processTokenResponse [] [] false false
        (("\x7b\"access_token\":\"tok99\"\x7d").data)).1 = .ok (("tok99").data) := by
  rfl

/-- Once the sender has been taken, every further callback is a no-op on the
handoff. -/
theorem runCallbacks_taken (expected : Str) (h : HandoffState)
    (ht : h.senderTaken = true) (qs : List CallbackQuery) :
    runCallbacks expected h qs = h := by
  induction qs with
  | nil => rfl
  | cons q qs ih =>
    have hstep : (callbackHandler expected h q).1 = h := by
      unfold callbackHandler
      by_cases hq : q.state = expected <;> simp [hq, ht]
    show runCallbacks expected (callbackHandler expected h q).1 qs = h
    rw [hstep, ih]

/-- The handoff after a request sequence is determined by the first callback
whose state matches: it is taken and holds that callback's pair, or it is
still fresh when no callback matched. -/
theorem processCallbacks_spec (expected : Str) (qs : List CallbackQuery) :
    processCallbacks expected qs =
      match qs.find? (fun q => decide (q.state = expected)) with
      | some q => ⟨true, some (q.code, q.state)⟩
      | none => initialHandoff := by
  induction qs with
  | nil => rfl
  | cons q rest ih =>
    by_cases hq : q.state = expected
    · rw [List.find?_cons_of_pos _ (by simpa using hq)]
      show runCallbacks expected (callbackHandler expected initialHandoff q).1 rest = _
      have hstep : (callbackHandler expected initialHandoff q).1
          = ⟨true, some (q.code, q.state)⟩ := by
        simp [callbackHandler, hq, initialHandoff]
      rw [hstep, runCallbacks_taken _ _ rfl]
    · rw [List.find?_cons_of_neg _ (by simpa using hq)]
      show runCallbacks expected (callbackHandler expected initialHandoff q).1 rest = _
      have hstep : (callbackHandler expected initialHandoff q).1 = initialHandoff := by
        simp [callbackHandler, hq]
      rw [hstep]
      exact ih

/-! ## Claim theorems -/

/-- C1: over any sequence of callback requests of one login attempt, the
handoff delivers at most one result, namely the pair of the first callback
whose state equals the expected state; a mismatched callback neither closes
nor delivers through the handoff; and once a matching callback has
delivered, any further requests leave the handoff unchanged. -/
theorem c1_single_use_handoff (expected : Str) (qs : List CallbackQuery) :
    ((processCallbacks expected qs).delivered
        = (qs.find? (fun q => decide (q.state = expected))).map
            (fun q => (q.code, q.state))) ∧
    ((processCallbacks expected qs).senderTaken
        = (qs.find? (fun q => decide (q.state = expected))).isSome) ∧
    (∀ h q, q.state ≠ expected →
        callbackHandler expected h q = (h, invalidStateHtml)) ∧
    (∀ rest, (qs.find? (fun q => decide (q.state = expected))).isSome = true →
        processCallbacks expected (qs ++ rest) = processCallbacks expected qs) := by
  have hspec := processCallbacks_spec expected qs
  refine ⟨?_, ?_, ?_, ?_⟩
  · rw [hspec]
    cases qs.find? (fun q => decide (q.state = expected)) <;> rfl
  · rw [hspec]
    cases qs.find? (fun q => decide (q.state = expected)) <;> rfl
  · intro h q hq
    simp [callbackHandler, hq]
  · intro rest hsome
    have htaken : (processCallbacks expected qs).senderTaken = true := by
      rw [hspec]
      cases hf : qs.find? (fun q => decide (q.state = expected)) with
      | none => rw [hf] at hsome; simp at hsome
      | some q => rfl
    show runCallbacks expected initialHandoff (qs ++ rest) = _
    rw [runCallbacks, List.foldl_append]
    exact runCallbacks_taken expected _ htaken rest

/-- Witness for C1 at a concrete request sequence: the first matching
callback delivers, and requests after it change nothing. -/
theorem c1_single_use_handoff_witness :
    (processCallbacks (("S").data)
        [⟨("c1").data, ("S").data⟩, ⟨("c2").data, ("X").data⟩]).delivered
      = some ((("c1").data), (("S").data)) ∧
    processCallbacks (("S").data)
        ([⟨("c1").data, ("S").data⟩, ⟨("c2").data, ("X").data⟩]
          ++ [⟨("c3").data, ("S").data⟩])
      = processCallbacks (("S").data)
          [⟨("c1").data, ("S").data⟩, ⟨("c2").data, ("X").data⟩] := by
  have h := c1_single_use_handoff (("S").data)
      [⟨("c1").data, ("S").data⟩, ⟨("c2").data, ("X").data⟩]
  exact ⟨h.1.trans (by rfl), h.2.2.2 [⟨("c3").data, ("S").data⟩] (by rfl)⟩

/-- C2: PKCE material built from 24 random state bytes and 64 random
verifier bytes has its challenge equal to the unpadded URL-safe base64 of
the SHA-256 digest of the ASCII bytes of the encoded verifier, and the
verifier is 86 characters long, inside the PKCE bound of 43 to 128. -/
theorem c2_pkce_material (stateBytes verifierBytes : List Nat)
    (hs : stateBytes.length = 24) (hv : verifierBytes.length = 64) :
    (generatePkce stateBytes verifierBytes).challenge
        = base64UrlNoPadEncode
            (sha256 ((generatePkce stateBytes verifierBytes).verifier.map Char.toNat)) ∧
    (generatePkce stateBytes verifierBytes).verifier.length = 86 ∧
    43 ≤ (generatePkce stateBytes verifierBytes).verifier.length ∧
    (generatePkce stateBytes verifierBytes).verifier.length ≤ 128 ∧
    (generatePkce stateBytes verifierBytes).state = random_url_safe stateBytes ∧
    (generatePkce stateBytes verifierBytes).state.length = 32 := by
  have hl : (generatePkce stateBytes verifierBytes).verifier.length = 86 := by
    show (random_url_safe verifierBytes).length = 86
    simp [random_url_safe, base64UrlNoPadEncode_length, hv]
  have hsl : (generatePkce stateBytes verifierBytes).state.length = 32 := by
    show (random_url_safe stateBytes).length = 32
    simp [random_url_safe, base64UrlNoPadEncode_length, hs]
  exact ⟨rfl, hl, by omega, by omega, rfl, hsl⟩

/-- Witness for C2 at concrete random bytes. -/
theorem c2_pkce_material_witness :
    43 ≤ (generatePkce (List.replicate 24 0) (List.replicate 64 0)).verifier.length ∧
    (generatePkce (List.replicate 24 0) (List.replicate 64 0)).verifier.length ≤ 128 :=
  ⟨(c2_pkce_material (List.replicate 24 0) (List.replicate 64 0)
      (by simp) (by simp)).2.2.1,
   (c2_pkce_material (List.replicate 24 0) (List.replicate 64 0)
      (by simp) (by simp)).2.2.2.1⟩

/-- C3: when the trimmed input parses as an absolute URL whose query carries
a `code`, capture succeeds with that code exactly when the query's `state`
(or, absent one, the assumed expected state) equals the expected state, and
fails with the state-mismatch error otherwise; with the spec's two concrete
inputs behaving as stated. -/
theorem c3_manual_capture_url (raw expected : Str) (u : ParsedUrl)
    (hu : urlParse (rustTrim raw) = some u) (c : Str) (stOpt : Option Str)
    (hc : extractCodeState (urlQueryPairs u) = (some c, stOpt)) :
    (stOpt = some expected →
        manual_oauth_input true raw expected = .ok (c, expected)) ∧
    (∀ s, stOpt = some s → s ≠ expected →
        manual_oauth_input true raw expected = .error .StateMismatch) ∧
    (stOpt = none →
        manual_oauth_input true raw expected = .ok (c, expected)) ∧
    manual_oauth_input true (("https://host/cb?code=ABC&state=S1").data) (("S1").data)
        = .ok (("ABC").data, ("S1").data) ∧
    manual_oauth_input true (("https://host/cb?code=ABC&state=S2").data) (("S1").data)
        = .error .StateMismatch := by
  have key : manual_oauth_input true raw expected = acceptCode c stOpt expected := by
    simp [manual_oauth_input, hu, hc]
  refine ⟨?_, ?_, ?_, by rfl, by rfl⟩
  · intro h
    rw [key, h]
    simp [acceptCode]
  · intro s hs hne
    rw [key, hs]
    simp [acceptCode, hne]
  · intro h
    rw [key, h]
    simp [acceptCode]

/-- Witness for C3 at the spec's concrete URL. -/
theorem c3_manual_capture_url_witness :
    manual_oauth_input true (("https://host/cb?code=ABC&state=S1").data) (("S1").data)
      = .ok (("ABC").data, ("S1").data) :=
  (c3_manual_capture_url (("https://host/cb?code=ABC&state=S1").data) (("S1").data)
      ⟨("https").data, ("//host/cb?code=ABC&state=S1").data⟩ rfl
      (("ABC").data) (some (("S1").data)) rfl).1 rfl

/-- Rule 2 of the manual fallback: an input containing both separators whose
form parameters carry a code goes through the shared accept-or-mismatch
step. -/
theorem manualTail_form (input expected c : Str) (stOpt : Option Str)
    (he : input.contains '=' = true) (ha : input.contains '&' = true)
    (hx : extractCodeState (formPairs input) = (some c, stOpt)) :
    manualTail input expected = acceptCode c stOpt expected := by
  have he' : ('=' : Char) ∈ input := by simpa using he
  have ha' : ('&' : Char) ∈ input := by simpa using ha
  simp [manualTail, hx, he', ha']

/-- Rules 3 and 4 of the manual fallback: when the form rule does not apply
or finds no code, a non-empty input is returned whole. -/
theorem manualTail_raw_nonempty (input expected : Str) (hne : input ≠ [])
    (h : input.contains '=' = false ∨ input.contains '&' = false ∨
        (extractCodeState (formPairs input)).1 = none) :
    manualTail input expected = .ok (input, expected) := by
  rcases h with h | h | h
  · have h' : ¬ (('=' : Char) ∈ input) := by simpa using h
    simp [manualTail, h', hne]
  · have h' : ¬ (('&' : Char) ∈ input) := by simpa using h
    simp [manualTail, h', hne]
  · rcases hp : extractCodeState (formPairs input) with ⟨o, st⟩
    rw [hp] at h
    simp only at h
    subst h
    by_cases hb : (('=' : Char) ∈ input ∧ ('&' : Char) ∈ input)
    · simp [manualTail, hp, hb, hne]
    · simp [manualTail, hp, hb, hne]

/-- Rule 4 of the manual fallback: empty input yields the no-code error. -/
theorem manualTail_empty (expected : Str) :
    manualTail [] expected = .error .NoCodeProvided := rfl

/-- C7: when the absolute-URL rule yields no code, capture equals the
fall-through rules: a raw query string containing both separators is parsed
as form parameters with the same code/state validation; otherwise a
non-empty input is returned whole as the code with the expected state, and
an empty input fails with the no-code error. -/
theorem c7_manual_capture_fallthrough (raw expected : Str)
    (hnf : urlParse (rustTrim raw) = none ∨
        ∃ u, urlParse (rustTrim raw) = some u ∧
            (extractCodeState (urlQueryPairs u)).1 = none) :
    manual_oauth_input true raw expected = manualTail (rustTrim raw) expected ∧
    (∀ c stOpt, (rustTrim raw).contains '=' = true →
        (rustTrim raw).contains '&' = true →
        extractCodeState (formPairs (rustTrim raw)) = (some c, stOpt) →
        ((stOpt = some expected ∨ stOpt = none) →
            manualTail (rustTrim raw) expected = .ok (c, expected)) ∧
        (∀ s, stOpt = some s → s ≠ expected →
            manualTail (rustTrim raw) expected = .error .StateMismatch)) ∧
    ((rustTrim raw).contains '=' = false ∨ (rustTrim raw).contains '&' = false ∨
        (extractCodeState (formPairs (rustTrim raw))).1 = none →
        (rustTrim raw ≠ [] →
            manualTail (rustTrim raw) expected = .ok (rustTrim raw, expected)) ∧
        (rustTrim raw = [] →
            manualTail (rustTrim raw) expected = .error .NoCodeProvided)) ∧
    manual_oauth_input true (("code=XYZ&state=S1").data) (("S1").data)
        = .ok (("XYZ").data, ("S1").data) ∧
    manual_oauth_input true (("code=XYZ&state=S2").data) (("S1").data)
        = .error .StateMismatch ∧
    manual_oauth_input true (("onlycode").data) (("S1").data)
        = .ok (("onlycode").data, ("S1").data) ∧
    manual_oauth_input true ([] : Str) expected = .error .NoCodeProvided := by
  refine ⟨?_, ?_, ?_, by rfl, by rfl, by rfl, by rfl⟩
  · rcases hnf with h | ⟨u, hu, hc⟩
    · simp [manual_oauth_input, h]
    · rcases hp : extractCodeState (urlQueryPairs u) with ⟨o, st⟩
      rw [hp] at hc
      simp only at hc
      subst hc
      simp [manual_oauth_input, hu, hp]
  · intro c stOpt he ha hx
    have key := manualTail_form (rustTrim raw) expected c stOpt he ha hx
    constructor
    · intro h
      rcases h with h | h <;> rw [key, h] <;> simp [acceptCode]
    · intro s hs hne
      rw [key, hs]
      simp [acceptCode, hne]
  · intro h
    constructor
    · intro hne
      exact manualTail_raw_nonempty (rustTrim raw) expected hne h
    · intro hemp
      rw [hemp]
      exact manualTail_empty expected

/-- Witness for C7 at the spec's concrete raw query string. -/
theorem c7_manual_capture_fallthrough_witness :
    manual_oauth_input true (("code=XYZ&state=S1").data) (("S1").data)
      = manualTail (rustTrim (("code=XYZ&state=S1").data)) (("S1").data) ∧
    manualTail (rustTrim (("code=XYZ&state=S1").data)) (("S1").data)
      = .ok (("XYZ").data, ("S1").data) := by
  have h := c7_manual_capture_fallthrough (("code=XYZ&state=S1").data) (("S1").data)
      (Or.inl rfl)
  exact ⟨h.1,
    ((h.2.1 (("XYZ").data) (some (("S1").data)) rfl rfl rfl).1 (Or.inl rfl)).trans
      (by rfl)⟩

/-- C10: a trimmed input that parses as an absolute URL with no code in its
query is not rejected at the URL rule but falls through to the later rules;
in particular a non-empty pasted URL without both separators is returned
whole as the raw code with the expected state. -/
theorem c10_url_without_code (raw expected : Str) (u : ParsedUrl)
    (hu : urlParse (rustTrim raw) = some u)
    (hnc : (extractCodeState (urlQueryPairs u)).1 = none) :
    manual_oauth_input true raw expected = manualTail (rustTrim raw) expected ∧
    (((rustTrim raw).contains '=' = false ∨ (rustTrim raw).contains '&' = false) →
        rustTrim raw ≠ [] →
        manual_oauth_input true raw expected = .ok (rustTrim raw, expected)) ∧
    manual_oauth_input true (("https://host/callback").data) (("S1").data)
        = .ok (("https://host/callback").data, ("S1").data) := by
  have key : manual_oauth_input true raw expected = manualTail (rustTrim raw) expected := by
    rcases hp : extractCodeState (urlQueryPairs u) with ⟨o, st⟩
    rw [hp] at hnc
    simp only at hnc
    subst hnc
    simp [manual_oauth_input, hu, hp]
  refine ⟨key, ?_, by rfl⟩
  intro hsep hne
  rw [key]
  exact manualTail_raw_nonempty (rustTrim raw) expected hne
    (hsep.elim Or.inl (fun h => Or.inr (Or.inl h)))

/-- Witness for C10 at a concrete pasted URL with no query. -/
theorem c10_url_without_code_witness :
    manual_oauth_input true (("https://host/callback").data) (("S1").data)
      = manualTail (rustTrim (("https://host/callback").data)) (("S1").data) ∧
    manual_oauth_input true (("https://host/callback").data) (("S1").data)
      = .ok (("https://host/callback").data, ("S1").data) := by
  have h := c10_url_without_code (("https://host/callback").data) (("S1").data)
      ⟨("https").data, ("//host/callback").data⟩ rfl rfl
  exact ⟨h.1, h.2.1 (Or.inl rfl) (by decide)⟩

/-- C6: a token-endpoint response whose transport call succeeded and whose
body parses as JSON but carries no string `access_token` field fails with
the no-access-token error instead of reporting success. -/
theorem c6_no_access_token (redirectUrl scopes : Str)
    (clientIdNonEmpty hasSecret : Bool) (stdout stderr : Str) (j : Json)
    (hp : jsonParse stdout = some j)
    (hm : jsonGetStr j accessTokenKey = none) :
    (tokenExchange redirectUrl scopes clientIdNonEmpty hasSecret
        (.ran true stdout stderr)).1 = .error .NoAccessToken ∧
    (processTokenResponse redirectUrl scopes clientIdNonEmpty hasSecret stdout).1
        = .error .NoAccessToken ∧
    (tokenExchange redirectUrl scopes clientIdNonEmpty hasSecret
        (.ran true (("\x7b\"error\":\"bad_verification_code\"\x7d").data) stderr)).1
        = .error .NoAccessToken := by
  have key : (processTokenResponse redirectUrl scopes clientIdNonEmpty hasSecret
      stdout).1 = .error .NoAccessToken := by
    simp [processTokenResponse, hp, hm]
  exact ⟨key, key, by rfl⟩

/-- Witness for C6 at a concrete GitHub-style error body. -/
theorem c6_no_access_token_witness :
    (tokenExchange [] [] false false
        (.ran true (("\x7b\"error\":\"bad_verification_code\"\x7d").data) [])).1
      = .error .NoAccessToken :=
  (c6_no_access_token [] [] false false
      (("\x7b\"error\":\"bad_verification_code\"\x7d").data) []
      (.obj [(("error").data, .str (("bad_verification_code").data))])
      rfl rfl).1

/-- Looking up a key after overwriting it finds the new value exactly when
the key was present. -/
theorem lookupField_setField_self (fields : List (Str × Json)) (k : Str) (v : Json) :
    lookupField (setField fields k v) k
      = if hasField fields k then some v else none := by
  induction fields with
  | nil => rfl
  | cons f t ih =>
    obtain ⟨k1, v1⟩ := f
    simp only [setField]
    by_cases hf : k1 = k
    · rw [if_pos hf]
      simp only [lookupField]
      rw [if_pos hf]
      simp only [hasField]
      rw [hf]
      simp
    · rw [if_neg hf]
      simp only [lookupField]
      rw [if_neg hf, ih]
      simp only [hasField]
      simp [hf]

/-- Overwriting one key leaves lookups of a different key unchanged. -/
theorem lookupField_setField_ne (fields : List (Str × Json)) (k k' : Str)
    (v : Json) (hne : k ≠ k') :
    lookupField (setField fields k' v) k = lookupField fields k := by
  induction fields with
  | nil => rfl
  | cons f t ih =>
    obtain ⟨k1, v1⟩ := f
    simp only [setField]
    by_cases hf : k1 = k'
    · have hfk : k1 ≠ k := by rw [hf]; exact fun h => hne h.symm
      rw [if_pos hf]
      simp only [lookupField]
      rw [if_neg hfk, if_neg hfk, ih]
    · rw [if_neg hf]
      simp only [lookupField]
      by_cases hk : k1 = k
      · rw [if_pos hk, if_pos hk]
      · rw [if_neg hk, if_neg hk, ih]

/-- Overwriting a value does not change which keys are present. -/
theorem hasField_setField (fields : List (Str × Json)) (k k' : Str) (v : Json) :
    hasField (setField fields k' v) k = hasField fields k := by
  induction fields with
  | nil => rfl
  | cons f t ih =>
    obtain ⟨k1, v1⟩ := f
    simp only [setField]
    by_cases hf : k1 = k'
    · rw [if_pos hf]
      simp only [hasField]
      rw [ih]
    · rw [if_neg hf]
      simp only [hasField]
      rw [ih]

/-- A successful lookup means the key is present. -/
theorem lookupField_some_hasField (fields : List (Str × Json)) (k : Str)
    (v : Json) (h : lookupField fields k = some v) :
    hasField fields k = true := by
  induction fields with
  | nil => exact Option.noConfusion h
  | cons f t ih =>
    obtain ⟨k1, v1⟩ := f
    by_cases hf : k1 = k
    · simp [hasField, hf]
    · simp only [lookupField, if_neg hf] at h
      simp [hasField, hf, ih h]

/-- The two redacted keys are distinct. -/
theorem accessTokenKey_ne_refreshTokenKey : accessTokenKey ≠ refreshTokenKey := by
  decide

/-- Redaction replaces a present access-token field by the placeholder. -/
theorem lookupField_redact_access (fields : List (Str × Json)) (v : Json)
    (hv : lookupField fields accessTokenKey = some v) :
    jsonGet (redactTokenResponse (.obj fields)) accessTokenKey
      = some (.str redactedValue) := by
  have hh := lookupField_some_hasField fields accessTokenKey v hv
  by_cases h2 : hasField (setField fields accessTokenKey (.str redactedValue))
      refreshTokenKey = true
  · simp [redactTokenResponse, jsonGet, hh, h2,
      lookupField_setField_ne _ _ _ _ accessTokenKey_ne_refreshTokenKey,
      lookupField_setField_self]
  · simp [redactTokenResponse, jsonGet, hh, h2, lookupField_setField_self]

/-- Redaction replaces a present refresh-token field by the placeholder. -/
theorem lookupField_redact_refresh (fields : List (Str × Json)) (v : Json)
    (hv : lookupField fields refreshTokenKey = some v) :
    jsonGet (redactTokenResponse (.obj fields)) refreshTokenKey
      = some (.str redactedValue) := by
  have hh := lookupField_some_hasField fields refreshTokenKey v hv
  by_cases h1 : hasField fields accessTokenKey = true
  · have hh1 : hasField (setField fields accessTokenKey (.str redactedValue))
        refreshTokenKey = true := by
      rw [hasField_setField]
      exact hh
    simp [redactTokenResponse, jsonGet, h1, hh1, lookupField_setField_self]
  · simp [redactTokenResponse, jsonGet, h1, hh, lookupField_setField_self]

/-- C4 counterexample: a token-endpoint body that does not parse as JSON —
here GitHub's form-encoded shape carrying the token text `secret123` — is
emitted verbatim in the parse-failure diagnostic, so the raw token value
appears unredacted in diagnostic output. -/
theorem c4_counterexample :
    jsonParse (("access_token=secret123&token_type=bearer").data) = none ∧
    (processTokenResponse [] [] false false
        (("access_token=secret123&token_type=bearer").data)).2
      = [debugLine (("Raw token response (non-JSON): ").data ++
          ("access_token=secret123&token_type=bearer").data)] ∧
    strHas (debugLine (("Raw token response (non-JSON): ").data ++
        ("access_token=secret123&token_type=bearer").data)).text
        (("secret123").data) = true :=
  ⟨rfl, rfl, by rfl⟩

/-- C4 amended: for a body that parses as JSON, diagnostics are only emitted
when no string `access_token` is present, and the single body-derived
diagnostic serializes a copy of the response in which any `access_token` and
`refresh_token` fields have been overwritten with `<redacted>`; a body that
does not parse as JSON is emitted raw in the parse-failure diagnostic. -/
theorem c4_redaction_amended (redirectUrl scopes : Str)
    (clientIdNonEmpty hasSecret : Bool) (body : Str) (j : Json)
    (hp : jsonParse body = some j) :
    (∀ tok, jsonGetStr j accessTokenKey = some tok →
        (processTokenResponse redirectUrl scopes clientIdNonEmpty hasSecret body).2
          = []) ∧
    (jsonGetStr j accessTokenKey = none →
        (processTokenResponse redirectUrl scopes clientIdNonEmpty hasSecret body).2
          = debugLine (("Token endpoint response (redacted): ").data ++
              jsonSerialize (redactTokenResponse j)) ::
            configDiags redirectUrl scopes clientIdNonEmpty hasSecret) ∧
    (∀ v, jsonGet j accessTokenKey = some v →
        jsonGet (redactTokenResponse j) accessTokenKey
          = some (.str redactedValue)) ∧
    (∀ v, jsonGet j refreshTokenKey = some v →
        jsonGet (redactTokenResponse j) refreshTokenKey
          = some (.str redactedValue)) ∧
    (∀ body', jsonParse body' = none →
        (processTokenResponse redirectUrl scopes clientIdNonEmpty hasSecret body').2
          = [debugLine (("Raw token response (non-JSON): ").data ++ body')]) := by
  refine ⟨?_, ?_, ?_, ?_, ?_⟩
  · intro tok htok
    simp [processTokenResponse, hp, htok]
  · intro hm
    simp [processTokenResponse, hp, hm]
  · intro v hv
    match j with
    | .obj fields => exact lookupField_redact_access fields v hv
  · intro v hv
    match j with
    | .obj fields => exact lookupField_redact_refresh fields v hv
  · intro body' hb
    simp [processTokenResponse, hb]

/-- Witness for the amended C4 at a concrete body holding a refresh token. -/
theorem c4_redaction_amended_witness :
    (processTokenResponse [] [] false false
        (("\x7b\"refresh_token\":\"r1\",\"scope\":\"s\"\x7d").data)).2
      = debugLine (("Token endpoint response (redacted): ").data ++
          jsonSerialize (redactTokenResponse
            (.obj [(("refresh_token").data, .str (("r1").data)),
                   (("scope").data, .str (("s").data))]))) ::
        configDiags [] [] false false ∧
    jsonGet (redactTokenResponse
        (.obj [(("refresh_token").data, .str (("r1").data)),
               (("scope").data, .str (("s").data))])) refreshTokenKey
      = some (.str redactedValue) := by
  have h := c4_redaction_amended [] [] false false
      (("\x7b\"refresh_token\":\"r1\",\"scope\":\"s\"\x7d").data)
      (.obj [(("refresh_token").data, .str (("r1").data)),
             (("scope").data, .str (("s").data))]) rfl
  exact ⟨h.2.1 rfl, h.2.2.2.1 (.str (("r1").data)) rfl⟩

/-- C5: leaving the callback wait has exactly the three outcomes of the
`AwaitOutcome` type — a received pair goes to validation, a closed handoff
and an elapsed timeout both go to manual fallback — the wait is bounded by
the 60-second constant, every diagnostic emitted at this step is
informational, and a timed-out flow computes the same result as a
closed-handoff flow, so the timeout itself is never surfaced as an error. -/
theorem c5_awaiting_callback (code state : Str) (o : AwaitOutcome)
    (st redirectUrl scopes : Str) (clientIdNonEmpty hasSecret : Bool)
    (deps : LoginDeps) :
    afterAwait (.received code state) = (.toValidation code state, []) ∧
    (afterAwait .closed).1 = .toManualFallback ∧
    (afterAwait .timedOut).1 = .toManualFallback ∧
    callbackTimeoutSecs = 60 ∧
    (∀ d ∈ (afterAwait o).2, d.level = .info) ∧
    (deps.awaitOutcome = .timedOut →
        (loginFlow st redirectUrl scopes clientIdNonEmpty hasSecret deps).1
          = (loginFlow st redirectUrl scopes clientIdNonEmpty hasSecret
              ⟨.closed, deps.interactive, deps.manualInput, deps.curl⟩).1) := by
  refine ⟨rfl, rfl, rfl, rfl, ?_, ?_⟩
  · intro d hd
    cases o with
    | received c s => simp [afterAwait] at hd
    | closed =>
      simp [afterAwait] at hd
      rw [hd]
      rfl
    | timedOut =>
      simp [afterAwait] at hd
      rw [hd]
      rfl
  · intro hto
    obtain ⟨ao, i, mi, cu⟩ := deps
    simp only at hto
    subst hto
    show (loginFlow st redirectUrl scopes clientIdNonEmpty hasSecret
        ⟨.timedOut, i, mi, cu⟩).1 = _
    simp only [loginFlow, afterAwait]
    cases hcap : manual_oauth_input i mi st with
    | error e => rfl
    | ok p =>
      obtain ⟨c, rs⟩ := p
      rcases hex : tokenExchange redirectUrl scopes clientIdNonEmpty hasSecret cu
        with ⟨res, diags⟩
      by_cases hrs : rs = st
      · subst hrs
        simp [hex]
      · simp [hrs]

/-- Witness for C5: a concrete timed-out run computes the same result as
the closed-handoff run, and the timeout diagnostic is informational. -/
theorem c5_awaiting_callback_witness :
    (loginFlow (("S").data) [] [] false false
        ⟨.timedOut, false, [], .spawnFailed⟩).1
      = (loginFlow (("S").data) [] [] false false
          ⟨.closed, false, [], .spawnFailed⟩).1 ∧
    (infoLine (("OAuth callback timed out after 60s.").data)).level = .info := by
  have h := c5_awaiting_callback [] [] .timedOut (("S").data) [] [] false false
      ⟨.timedOut, false, [], .spawnFailed⟩
  exact ⟨h.2.2.2.2.2 rfl, h.2.2.2.2.1 _ (by simp [afterAwait])⟩

/-- C9: with the bypass variable set to `1`, `ensure_authenticated` returns
success with no diagnostics, independently of what either login flavour
would produce; with the variable unset, the bypass branch is not taken and
the selected login flavour's result is returned. -/
theorem c9_bypass (isTerminal : Bool) (choice : Str)
    (r1 r2 r1' r2' : Except ErrorKind Unit × List DiagLine) :
    ensure_authenticated (some (("1").data)) isTerminal choice r1 r2 = (.ok (), []) ∧
    ensure_authenticated (some (("1").data)) isTerminal choice r1 r2
      = ensure_authenticated (some (("1").data)) isTerminal choice r1' r2' ∧
    ensureAuthMode (some (("1").data)) isTerminal choice = .bypass ∧
    ensureAuthMode none isTerminal choice ≠ .bypass ∧
    ensure_authenticated none isTerminal choice r1 r2
      = (if isTerminal && choiceStartsWithM choice then r1 else r2) := by
  have hb : bypassRequested (some (("1").data)) = true := by rfl
  have hn : bypassRequested none = false := by rfl
  refine ⟨?_, ?_, ?_, ?_, ?_⟩
  · simp [ensure_authenticated, ensureAuthMode, hb]
  · simp [ensure_authenticated, ensureAuthMode, hb]
  · simp [ensureAuthMode, hb]
  · simp only [ensureAuthMode, hn, Bool.false_eq_true, if_false]
    cases isTerminal && choiceStartsWithM choice <;> simp
  · simp only [ensure_authenticated, ensureAuthMode, hn, Bool.false_eq_true, if_false]
    cases isTerminal && choiceStartsWithM choice <;> simp

/-- Witness for C9 at concrete inputs. -/
theorem c9_bypass_witness :
    ensure_authenticated (some (("1").data)) true (("a").data)
        (.ok (), []) (.error .ConfigMissing, []) = (.ok (), []) ∧
    ensureAuthMode none true (("a").data) ≠ .bypass :=
  ⟨(c9_bypass true (("a").data) (.ok (), []) (.error .ConfigMissing, [])
      (.ok (), []) (.ok (), [])).1,
   (c9_bypass true (("a").data) (.ok (), []) (.error .ConfigMissing, [])
      (.ok (), []) (.ok (), [])).2.2.2.1⟩

end GooseAuth
